import Mathlib

/-!
Formal model of the mogipay checkout and inventory consistency engine.

The definitions below are a shallow embedding of the Python backend under
src/backend/app.  Product identifiers are natural numbers standing in for
UUIDs; monetary amounts are integers (the products table stores unit_cost
and sale_price as Integer columns); stock counts and quantities are
integers (Python int).  The SQLAlchemy session is modelled as a pair of
database states: the committed store and the pending uncommitted view of
the current transaction.  Raised exceptions are modelled as Except errors,
with one constructor per Python exception class that the checkout path can
raise.
-/

/-- Product kind, the products.product_type column constrained to
the two values single and set (models/product.py). -/
inductive ProductType where
  | single : ProductType
  | set : ProductType
deriving DecidableEq, Repr

/-- A row of the products table (models/product.py). -/
structure Product where
  id : Nat
  name : String
  unit_cost : Int
  sale_price : Int
  initial_stock : Int
  current_stock : Int
  product_type : ProductType
deriving DecidableEq, Repr

/-- A row of the set_items table: one composition entry of a set
product (models/set_item.py). -/
structure SetItem where
  set_product_id : Nat
  item_product_id : Nat
  quantity : Int
deriving DecidableEq, Repr

/-- A row of the sale_items table: the immutable price snapshot of one
checkout line (models/sale_item.py). -/
structure SaleItem where
  sale_id : Nat
  product_id : Nat
  product_name : String
  quantity : Int
  unit_cost : Int
  sale_price : Int
  subtotal : Int
deriving DecidableEq, Repr

/-- A row of the sales_history table together with its owned sale_items
(models/sales_history.py). -/
structure SalesHistory where
  id : Nat
  total_amount : Int
  sale_items : List SaleItem
deriving DecidableEq, Repr

/-- The relational store: products, set composition entries and the sales
ledger.  next_sale_id models primary key generation for sales_history. -/
structure DB where
  products : List Product
  set_items : List SetItem
  sales : List SalesHistory
  next_sale_id : Nat
deriving DecidableEq, Repr

/-- A SQLAlchemy session: the committed database plus the pending view of
the open transaction.  All repository reads and writes act on pending;
commit publishes pending, rollback discards it. -/
structure Session where
  committed : DB
  pending : DB
deriving DecidableEq, Repr

/-- db.commit(): publish the pending state. -/
def Session.commit (s : Session) : Session :=
  { committed := s.pending, pending := s.pending }

/-- db.rollback(): discard the pending state. -/
def Session.rollback (s : Session) : Session :=
  { committed := s.committed, pending := s.committed }

/-- Exceptions that the checkout path can raise, one constructor per
Python exception class. -/
inductive CheckoutError where
  /-- builtins.ValueError with message Product id not found, raised by
  SalesService.process_checkout step 1, ProductRepository.decrement_stock
  and ProductService.update_price. -/
  | valueError (product_id : Nat) : CheckoutError
  /-- app.exceptions.InsufficientStockError carrying product id,
  requested and available quantities. -/
  | insufficientStockError (product_id : Nat) (requested : Int)
      (available : Int) : CheckoutError
  /-- app.repositories.product_repository.InsufficientStockError, a
  distinct class whose message carries requested and available. -/
  | repoInsufficientStock (requested : Int) (available : Int) : CheckoutError
  /-- app.exceptions.ProductNotFoundError carrying the product id.  The
  class exists and the controller handles it, and this model shows the
  checkout service never raises it. -/
  | productNotFoundError (product_id : Nat) : CheckoutError
  /-- builtins.StopIteration escaping the bare next(...) call in
  SalesService.process_checkout step 2. -/
  | stopIteration : CheckoutError
  /-- builtins.IndexError from indexing an empty list. -/
  | indexError : CheckoutError
deriving DecidableEq, Repr

/-- ProductRepository.get_by_id (product_repository.py lines 68 to 80):
select the product row whose primary key matches. -/
def ProductRepository.get_by_id (product_id : Nat) (db : DB) : Option Product :=
  db.products.find? (fun p => p.id == product_id)

/-- SetItemRepository.get_by_set_product_id (set_item_repository.py lines
49 to 63): all composition rows of the given set product. -/
def SetItemRepository.get_by_set_product_id (set_product_id : Nat) (db : DB) :
    List SetItem :=
  db.set_items.filter (fun si => si.set_product_id == set_product_id)

/-- Replace the product row with matching id; ids are unique (primary
key), so this is the in-place row update performed through the ORM. -/
def DB.updateProduct (db : DB) (p : Product) : DB :=
  { db with products := db.products.map (fun q => if q.id = p.id then p else q) }

/-- ProductRepository.decrement_stock (product_repository.py lines 151 to
192): lock and re-read the row, raise ValueError when the product does
not exist, raise the repository InsufficientStockError when
current_stock is less than quantity, otherwise subtract quantity.  Does
not commit; on error no state is produced, matching the Python raise
occurring before any mutation. -/
def ProductRepository.decrement_stock (product_id : Nat) (quantity : Int)
    (db : DB) : Except CheckoutError (DB × Product) :=
  match ProductRepository.get_by_id product_id db with
  | none => .error (.valueError product_id)
  | some product =>
    if product.current_stock < quantity then
      .error (.repoInsufficientStock quantity product.current_stock)
    else
      let updated := { product with current_stock := product.current_stock - quantity }
      .ok (db.updateProduct updated, updated)

/-- The loop body of InventoryService.calculate_set_stock
(inventory_service.py lines 101 to 111): collect the per component
floor quotients, returning none on the first missing component, which
the caller turns into a derived stock of 0. -/
def availableStocksLoop : List SetItem → DB → Option (List Int)
  | [], _ => some []
  | si :: rest, db =>
    match ProductRepository.get_by_id si.item_product_id db with
    | none => none
    | some p =>
      (availableStocksLoop rest db).map
        (fun l => Int.fdiv p.current_stock si.quantity :: l)

/-- InventoryService.calculate_set_stock (inventory_service.py lines 71
to 114): derived stock of a set product, the minimum over composition
entries of floor(component stock / per set quantity); 0 when the set
has no composition entries or a component is missing. -/
def InventoryService.calculate_set_stock (set_product_id : Nat) (db : DB) : Int :=
  let set_items := SetItemRepository.get_by_set_product_id set_product_id db
  if set_items.isEmpty then 0
  else
    match availableStocksLoop set_items db with
    | none => 0
    | some [] => 0
    | some (a :: rest) => rest.foldl min a

/-- One line of a checkout cart (the CheckoutItem dataclass of
sales_service.py; check_stock_availability receives the same two fields
as a dict). -/
structure CheckoutItem where
  product_id : Nat
  quantity : Int
deriving DecidableEq, Repr

/-- Result of the advisory availability check (the StockCheckResult
dataclass of inventory_service.py). -/
structure StockCheckResult where
  is_available : Bool
  insufficient_items : List Nat
deriving DecidableEq, Repr

/-- Python dict.get(key, 0) on the required_quantities accumulator,
an insertion ordered map from product id to quantity. -/
def dictGet (d : List (Nat × Int)) (k : Nat) : Int :=
  match d with
  | [] => 0
  | kv :: rest => if kv.1 = k then kv.2 else dictGet rest k

/-- Python dict assignment d[k] = v: replace in place when the key
exists, otherwise append, preserving insertion order. -/
def dictSet (d : List (Nat × Int)) (k : Nat) (v : Int) : List (Nat × Int) :=
  match d with
  | [] => [(k, v)]
  | kv :: rest => if kv.1 = k then (k, v) :: rest else kv :: dictSet rest k v

/-- The inner loop of check_stock_availability for a set line
(inventory_service.py lines 166 to 171): add per set quantity times the
requested quantity to the accumulator entry of each component. -/
def addComponents (set_items : List SetItem) (requested_quantity : Int)
    (acc : List (Nat × Int)) : List (Nat × Int) :=
  match set_items with
  | [] => acc
  | si :: rest =>
    addComponents rest requested_quantity
      (dictSet acc si.item_product_id
        (dictGet acc si.item_product_id + si.quantity * requested_quantity))

/-- The per line branch of step 1 of check_stock_availability
(inventory_service.py lines 159 to 171): a single product adds its
requested quantity to its own accumulator entry, a set product adds the
expanded component quantities. -/
def accumulateStep (product : Product) (item : CheckoutItem) (db : DB)
    (acc : List (Nat × Int)) : List (Nat × Int) :=
  match product.product_type with
  | .single =>
    dictSet acc item.product_id (dictGet acc item.product_id + item.quantity)
  | .set =>
    addComponents (SetItemRepository.get_by_set_product_id item.product_id db)
      item.quantity acc

/-- Step 1 of check_stock_availability (inventory_service.py lines 142 to
171): fold the cart into the required_quantities accumulator, expanding
set lines through their composition; a missing product short circuits
with the early StockCheckResult listing just that id. -/
def accumulateRequired (items : List CheckoutItem) (db : DB)
    (acc : List (Nat × Int)) : Except (List Nat) (List (Nat × Int)) :=
  match items with
  | [] => .ok acc
  | item :: rest =>
    match ProductRepository.get_by_id item.product_id db with
    | none => .error [item.product_id]
    | some product => accumulateRequired rest db (accumulateStep product item db acc)

/-- Step 2 of check_stock_availability (inventory_service.py lines 173 to
184): collect, in accumulator order, the ids whose product is missing or
whose current stock is below the aggregated requirement. -/
def collectInsufficient (entries : List (Nat × Int)) (db : DB) : List Nat :=
  match entries with
  | [] => []
  | (pid, req) :: rest =>
    match ProductRepository.get_by_id pid db with
    | none => pid :: collectInsufficient rest db
    | some p =>
      if p.current_stock < req then pid :: collectInsufficient rest db
      else collectInsufficient rest db

/-- InventoryService.check_stock_availability (inventory_service.py lines
116 to 190): the advisory, read only availability check over a whole
cart. -/
def InventoryService.check_stock_availability (checkout_items : List CheckoutItem)
    (db : DB) : StockCheckResult :=
  match accumulateRequired checkout_items db [] with
  | .error ids => { is_available := false, insufficient_items := ids }
  | .ok required =>
    let insufficient := collectInsufficient required db
    { is_available := insufficient.isEmpty, insufficient_items := insufficient }

/-- Result of a successful checkout (the CheckoutResult dataclass of
sales_service.py; the creation timestamp is not modelled). -/
structure CheckoutResult where
  sale_id : Nat
  total_amount : Int
deriving DecidableEq, Repr

/-- Step 1 of SalesService.process_checkout (sales_service.py lines 112
to 124): resolve every cart line to its product, raising ValueError on
the first unknown id. -/
def buildItemDetails (items : List CheckoutItem) (db : DB) :
    Except CheckoutError (List (Product × Int)) :=
  match items with
  | [] => .ok []
  | item :: rest =>
    match ProductRepository.get_by_id item.product_id db with
    | none => .error (.valueError item.product_id)
    | some product =>
      (buildItemDetails rest db).map (fun l => (product, item.quantity) :: l)

/-- Step 4 of SalesService.process_checkout (sales_service.py lines 151
to 169): the price snapshot of each cart line, read from the product row
as currently stored. -/
def mkSalesItems (item_details : List (Product × Int)) : List SaleItem :=
  item_details.map (fun pq =>
    { sale_id := 0
      product_id := pq.1.id
      product_name := pq.1.name
      quantity := pq.2
      unit_cost := pq.1.unit_cost
      sale_price := pq.1.sale_price
      subtotal := pq.1.sale_price * pq.2 })

/-- SalesHistoryRepository.create_sale (sales_history_repository.py lines
21 to 60): insert the sales_history row and its sale_items, then call
db.commit() (line 58), publishing the sale before the caller returns. -/
def SalesHistoryRepository.create_sale (total_amount : Int)
    (sale_items_data : List SaleItem) (s : Session) : Session × SalesHistory :=
  let db := s.pending
  let sale_id := db.next_sale_id
  let sale : SalesHistory :=
    { id := sale_id
      total_amount := total_amount
      sale_items := sale_items_data.map (fun it => { it with sale_id := sale_id }) }
  let db2 := { db with sales := db.sales ++ [sale], next_sale_id := sale_id + 1 }
  (Session.commit { s with pending := db2 }, sale)

/-- The component decrement loop of step 6 of process_checkout
(sales_service.py lines 188 to 195): decrement each component of a set
line by per set quantity times the requested quantity. -/
def decrementComponents (set_items : List SetItem) (quantity : Int) (db : DB) :
    Except CheckoutError DB :=
  match set_items with
  | [] => .ok db
  | si :: rest =>
    match ProductRepository.decrement_stock si.item_product_id
        (si.quantity * quantity) db with
    | .error e => .error e
    | .ok (db2, _) => decrementComponents rest quantity db2

/-- Step 6 of process_checkout (sales_service.py lines 178 to 195):
decrement stock for every cart line, directly for single products and
through the composition for set products.  Acts on the pending state of
the session; any raise propagates to the except branch. -/
def decrementLoop (item_details : List (Product × Int)) (s : Session) :
    Except CheckoutError Session :=
  match item_details with
  | [] => .ok s
  | (product, quantity) :: rest =>
    match product.product_type with
    | .single =>
      match ProductRepository.decrement_stock product.id quantity s.pending with
      | .error e => .error e
      | .ok (db2, _) => decrementLoop rest { s with pending := db2 }
    | .set =>
      match decrementComponents
          (SetItemRepository.get_by_set_product_id product.id s.pending)
          quantity s.pending with
      | .error e => .error e
      | .ok db2 => decrementLoop rest { s with pending := db2 }

/-- SalesService.process_checkout (sales_service.py lines 75 to 209):
validate products, run the advisory availability check, snapshot prices,
persist the sale through create_sale, decrement stock, commit; on any
exception inside the try block, roll back and re-raise. -/
def SalesService.process_checkout (items : List CheckoutItem) (s : Session) :
    Except CheckoutError CheckoutResult × Session :=
  match buildItemDetails items s.pending with
  | .error e => (.error e, s)
  | .ok item_details =>
    let stock_check := InventoryService.check_stock_availability items s.pending
    if stock_check.is_available then
      let sales_items := mkSalesItems item_details
      let total_amount := sales_items.foldl (fun acc it => acc + it.subtotal) 0
      let created := SalesHistoryRepository.create_sale total_amount sales_items s
      match decrementLoop item_details created.1 with
      | .error e => (.error e, Session.rollback created.1)
      | .ok s2 =>
        (.ok { sale_id := created.2.id, total_amount := created.2.total_amount },
         Session.commit s2)
    else
      match stock_check.insufficient_items with
      | [] => (.error .indexError, s)
      | first :: _ =>
        match items.find? (fun i => i.product_id == first) with
        | none => (.error .stopIteration, s)
        | some requested_item =>
          let available :=
            match ProductRepository.get_by_id first s.pending with
            | some p => p.current_stock
            | none => 0
          (.error (.insufficientStockError first requested_item.quantity available), s)

/-- The same checkout control flow with one concurrent transaction made
explicit: because create_sale commits (sales_history_repository.py line
58), the enclosing transaction ends there and the stock decrements run
in a fresh transaction.  The function other is the committed effect of
another session, becoming visible exactly at that transaction boundary.
The spec names this window: an InsufficientStock from a decrement can
occur under race even after the advisory check. -/
def SalesService.process_checkout_interleaved (other : DB → DB)
    (items : List CheckoutItem) (s : Session) :
    Except CheckoutError CheckoutResult × Session :=
  match buildItemDetails items s.pending with
  | .error e => (.error e, s)
  | .ok item_details =>
    let stock_check := InventoryService.check_stock_availability items s.pending
    if stock_check.is_available then
      let sales_items := mkSalesItems item_details
      let total_amount := sales_items.foldl (fun acc it => acc + it.subtotal) 0
      let created := SalesHistoryRepository.create_sale total_amount sales_items s
      let visible := other created.1.committed
      let s1 : Session := { committed := visible, pending := visible }
      match decrementLoop item_details s1 with
      | .error e => (.error e, Session.rollback s1)
      | .ok s2 =>
        (.ok { sale_id := created.2.id, total_amount := created.2.total_amount },
         Session.commit s2)
    else
      match stock_check.insufficient_items with
      | [] => (.error .indexError, s)
      | first :: _ =>
        match items.find? (fun i => i.product_id == first) with
        | none => (.error .stopIteration, s)
        | some requested_item =>
          let available :=
            match ProductRepository.get_by_id first s.pending with
            | some p => p.current_stock
            | none => 0
          (.error (.insufficientStockError first requested_item.quantity available), s)

/-- The committed effect of a concurrent checkout of one cart line: a
successful locked decrement published by the other transaction; when the
other transaction fails nothing is published. -/
def concurrentDecrement (product_id : Nat) (quantity : Int) (db : DB) : DB :=
  match ProductRepository.decrement_stock product_id quantity db with
  | .ok (db2, _) => db2
  | .error _ => db

/-- Pydantic validation of the checkout request body (sales_controller.py
lines 28 to 38): at least one item, every quantity strictly positive.
Runs before the handler body, hence before any lookup. -/
def CheckoutRequest.is_valid (items : List CheckoutItem) : Bool :=
  !items.isEmpty && items.all (fun i => 0 < i.quantity)

/-- Failure outcomes of the checkout endpoint as seen by the caller. -/
inductive ApiError where
  /-- HTTP 422 from request model validation, before the handler runs. -/
  | validationError : ApiError
  /-- HTTP 400 INSUFFICIENT_STOCK built from
  app.exceptions.InsufficientStockError. -/
  | insufficientStock (product_id : Nat) (requested : Int)
      (available : Int) : ApiError
  /-- HTTP 404 RESOURCE_NOT_FOUND built from
  app.exceptions.ProductNotFoundError. -/
  | resourceNotFound (product_id : Nat) : ApiError
  /-- Any other exception escapes the handler unhandled. -/
  | internalError (e : CheckoutError) : ApiError
deriving DecidableEq, Repr

/-- The checkout endpoint (sales_controller.py lines 125 to 199):
pydantic validation, then process_checkout, catching only the two
exception classes imported from app.exceptions. -/
def SalesController.checkout (items : List CheckoutItem) (s : Session) :
    Except ApiError CheckoutResult × Session :=
  if CheckoutRequest.is_valid items then
    match SalesService.process_checkout items s with
    | (.ok r, s2) => (.ok r, s2)
    | (.error (.insufficientStockError pid req avail), s2) =>
      (.error (.insufficientStock pid req avail), s2)
    | (.error (.productNotFoundError pid), s2) =>
      (.error (.resourceNotFound pid), s2)
    | (.error e, s2) => (.error (.internalError e), s2)
  else
    (.error .validationError, s)

/-- ProductRepository.update (product_repository.py lines 100 to 128)
applied to the single field update that ProductService.update_price
passes, namely the dict with one sale_price key. -/
def ProductRepository.update_sale_price (product_id : Nat) (new_price : Int)
    (db : DB) : Option (DB × Product) :=
  match ProductRepository.get_by_id product_id db with
  | none => none
  | some p =>
    let p2 := { p with sale_price := new_price }
    some (db.updateProduct p2, p2)

/-- ProductService.update_price (product_service.py lines 144 to 189):
look up the product, raise ValueError when missing, update sale_price
through the repository and commit; the except branch rolls back. -/
def ProductService.update_price (product_id : Nat) (new_price : Int)
    (s : Session) : Except CheckoutError Product × Session :=
  match ProductRepository.get_by_id product_id s.pending with
  | none => (.error (.valueError product_id), Session.rollback s)
  | some _ =>
    match ProductRepository.update_sale_price product_id new_price s.pending with
    | none => (.error (.valueError product_id), Session.rollback s)
    | some (db2, p2) => (.ok p2, Session.commit { s with pending := db2 })

/-- The derived stock rule as the spec words it: the minimum over the
composition entries of floor(component current stock / per set
quantity), and 0 when there are no composition entries or a referenced
component is missing. -/
def InventoryService.calculate_set_stock_spec (set_product_id : Nat) (db : DB) : Int :=
  let comp := SetItemRepository.get_by_set_product_id set_product_id db
  if comp = [] then 0
  else if comp.any
      (fun si => (ProductRepository.get_by_id si.item_product_id db).isNone) then 0
  else
    match comp.map (fun si =>
        Int.fdiv ((ProductRepository.get_by_id si.item_product_id db).elim 0
          Product.current_stock) si.quantity) with
    | [] => 0
    | a :: rest => rest.foldl min a

theorem availableStocksLoop_eq_none (l : List SetItem) (db : DB) :
    (availableStocksLoop l db = none ↔
      l.any (fun si =>
        (ProductRepository.get_by_id si.item_product_id db).isNone) = true) := by
  induction l with
  | nil => simp [availableStocksLoop]
  | cons si rest ih =>
    simp only [availableStocksLoop, List.any_cons, Bool.or_eq_true]
    cases h : ProductRepository.get_by_id si.item_product_id db with
    | none => simp [h]
    | some p => simp [h, Option.map_eq_none', ih]

theorem availableStocksLoop_eq_some_map (l : List SetItem) (db : DB)
    (h : ∀ si ∈ l, (ProductRepository.get_by_id si.item_product_id db).isSome) :
    availableStocksLoop l db =
      some (l.map (fun si =>
        Int.fdiv ((ProductRepository.get_by_id si.item_product_id db).elim 0
          Product.current_stock) si.quantity)) := by
  induction l with
  | nil => simp [availableStocksLoop]
  | cons si rest ih =>
    have hsi := h si (List.mem_cons_self si rest)
    cases hget : ProductRepository.get_by_id si.item_product_id db with
    | none => rw [hget] at hsi; simp at hsi
    | some p =>
      have : availableStocksLoop rest db = _ :=
        ih (fun x hx => h x (List.mem_cons_of_mem si hx))
      simp [availableStocksLoop, hget, this]

/-- C2.  For every set product, calculate_set_stock computes the derived
stock exactly as the bottleneck rule states: the minimum over the
composition entries of floor(component current_stock / per set
quantity), with derived stock 0 when the set has no composition entries
or any referenced component product does not exist. -/
theorem calculate_set_stock_eq_min_rule (set_product_id : Nat) (db : DB) :
    InventoryService.calculate_set_stock set_product_id db =
      InventoryService.calculate_set_stock_spec set_product_id db := by
  unfold InventoryService.calculate_set_stock InventoryService.calculate_set_stock_spec
  cases hcomp : SetItemRepository.get_by_set_product_id set_product_id db with
  | nil => rfl
  | cons c cs =>
    dsimp only [List.isEmpty_cons]
    rw [if_neg (by simp), if_neg (by simp)]
    by_cases hmiss : ((c :: cs).any fun si =>
        (ProductRepository.get_by_id si.item_product_id db).isNone) = true
    · rw [(availableStocksLoop_eq_none (c :: cs) db).mpr hmiss, if_pos hmiss]
    · have hall : ∀ si ∈ c :: cs,
          (ProductRepository.get_by_id si.item_product_id db).isSome := by
        intro si hsi
        cases hg : ProductRepository.get_by_id si.item_product_id db with
        | none => exact absurd (List.any_eq_true.mpr ⟨si, hsi, by rw [hg]; rfl⟩) hmiss
        | some p => rfl
      rw [availableStocksLoop_eq_some_map (c :: cs) db hall, if_neg hmiss]
      rfl

/-- C4.  For an existing product, the locked decrement fails with the
repository InsufficientStockError exactly when current_stock is below
the requested quantity, producing no state change (the raise happens
before any mutation), and otherwise replaces the row with current_stock
minus the quantity; decrementing exactly the available quantity leaves
stock 0, decrementing one more fails. -/
theorem decrement_stock_boundary_spec (db : DB) (pid : Nat) (q : Int) (p : Product)
    (h : ProductRepository.get_by_id pid db = some p) :
    (ProductRepository.decrement_stock pid q db =
      (if p.current_stock < q then
        .error (.repoInsufficientStock q p.current_stock)
      else
        .ok (db.updateProduct { p with current_stock := p.current_stock - q },
             { p with current_stock := p.current_stock - q })))
    ∧ ((∃ e, ProductRepository.decrement_stock pid q db = .error e) ↔
        p.current_stock < q)
    ∧ (q = p.current_stock →
        ∃ db2 p2, ProductRepository.decrement_stock pid q db = .ok (db2, p2)
          ∧ p2.current_stock = 0)
    ∧ (q = p.current_stock + 1 →
        ProductRepository.decrement_stock pid q db =
          .error (.repoInsufficientStock q p.current_stock)) := by
  have heq : ProductRepository.decrement_stock pid q db =
      (if p.current_stock < q then
        .error (.repoInsufficientStock q p.current_stock)
      else
        .ok (db.updateProduct { p with current_stock := p.current_stock - q },
             { p with current_stock := p.current_stock - q })) := by
    unfold ProductRepository.decrement_stock
    rw [h]
  refine ⟨heq, ?_, ?_, ?_⟩
  · constructor
    · rintro ⟨e, he⟩
      by_contra hlt
      rw [heq, if_neg hlt] at he
      exact Except.noConfusion he
    · intro hlt
      exact ⟨_, by rw [heq, if_pos hlt]⟩
  · intro hq
    refine ⟨_, _, by rw [heq, if_neg (by omega)], by simp [hq]⟩
  · intro hq
    rw [heq, if_pos (by omega)]

def w4p : Product :=
  { id := 1, name := "P", unit_cost := 80, sale_price := 150,
    initial_stock := 5, current_stock := 5, product_type := .single }

def w4db : DB := { products := [w4p], set_items := [], sales := [], next_sale_id := 0 }

/-- Witness for C4 at product id 1 with stock 5 and requested quantity 6. -/
theorem decrement_stock_boundary_spec_witness :
    ProductRepository.get_by_id 1 w4db = some w4p
    ∧ ((ProductRepository.decrement_stock 1 6 w4db =
        (if w4p.current_stock < 6 then
          .error (.repoInsufficientStock 6 w4p.current_stock)
        else
          .ok (w4db.updateProduct { w4p with current_stock := w4p.current_stock - 6 },
               { w4p with current_stock := w4p.current_stock - 6 })))
      ∧ ((∃ e, ProductRepository.decrement_stock 1 6 w4db = .error e) ↔
          w4p.current_stock < 6)
      ∧ (6 = w4p.current_stock →
          ∃ db2 p2, ProductRepository.decrement_stock 1 6 w4db = .ok (db2, p2)
            ∧ p2.current_stock = 0)
      ∧ (6 = w4p.current_stock + 1 →
          ProductRepository.decrement_stock 1 6 w4db =
            .error (.repoInsufficientStock 6 w4p.current_stock))) :=
  ⟨by decide, decrement_stock_boundary_spec w4db 1 6 w4p (by decide)⟩

/-- C10.  For an existing product with the non negative stock invariant
and a non positive requested quantity, decrement_stock never signals
InsufficientStock, and it sets current_stock to current_stock minus the
quantity: quantity 0 leaves stock unchanged and a negative quantity
increases it.  No guard at this interface rejects non positive
quantities. -/
theorem decrement_stock_nonpositive_quantity (db : DB) (pid : Nat) (q : Int)
    (p : Product) (h : ProductRepository.get_by_id pid db = some p)
    (hs : 0 ≤ p.current_stock) (hq : q ≤ 0) :
    (∀ r a, ProductRepository.decrement_stock pid q db ≠
        .error (.repoInsufficientStock r a))
    ∧ ProductRepository.decrement_stock pid q db =
        .ok (db.updateProduct { p with current_stock := p.current_stock - q },
             { p with current_stock := p.current_stock - q })
    ∧ (q = 0 →
        ({ p with current_stock := p.current_stock - q } : Product).current_stock
          = p.current_stock)
    ∧ (q < 0 →
        p.current_stock <
          ({ p with current_stock := p.current_stock - q } : Product).current_stock) := by
  have heq : ProductRepository.decrement_stock pid q db =
      .ok (db.updateProduct { p with current_stock := p.current_stock - q },
           { p with current_stock := p.current_stock - q }) := by
    simp only [ProductRepository.decrement_stock, h]
    rw [if_neg (by omega)]
  refine ⟨fun r a hcon => by rw [heq] at hcon; exact Except.noConfusion hcon,
    heq, fun h0 => by simp [h0], fun hneg => by simp; omega⟩

/-- Witness for C10 at product id 1 with stock 5 and quantity -3. -/
theorem decrement_stock_nonpositive_quantity_witness :
    ProductRepository.get_by_id 1 w4db = some w4p
    ∧ 0 ≤ w4p.current_stock
    ∧ (-3 : Int) ≤ 0
    ∧ ((∀ r a, ProductRepository.decrement_stock 1 (-3) w4db ≠
          .error (.repoInsufficientStock r a))
      ∧ ProductRepository.decrement_stock 1 (-3) w4db =
          .ok (w4db.updateProduct { w4p with current_stock := w4p.current_stock - (-3) },
               { w4p with current_stock := w4p.current_stock - (-3) })
      ∧ ((-3 : Int) = 0 →
          ({ w4p with current_stock := w4p.current_stock - (-3) } : Product).current_stock
            = w4p.current_stock)
      ∧ ((-3 : Int) < 0 →
          w4p.current_stock <
            ({ w4p with current_stock := w4p.current_stock - (-3) } : Product).current_stock)) :=
  ⟨by decide, by decide, by decide,
    decrement_stock_nonpositive_quantity w4db 1 (-3) w4p (by decide) (by decide) (by decide)⟩

def raceProduct : Product :=
  { id := 1, name := "P", unit_cost := 80, sale_price := 150,
    initial_stock := 1, current_stock := 1, product_type := .single }

def raceDB : DB :=
  { products := [raceProduct], set_items := [], sales := [], next_sale_id := 0 }

def raceSession : Session := { committed := raceDB, pending := raceDB }

/-- C1.  Checkout is not all-or-nothing: create_sale commits the sale
record in the middle of process_checkout (sales_history_repository.py
line 58), ending the enclosing transaction, so when a stock decrement
then fails (here because a concurrent checkout of the same single unit
committed in the race window the spec itself describes), the rollback
discards only the decrements and the sale transaction with its line
items survives.  Concretely: product 1 has stock 1, the cart requests
one unit, the advisory check passes, the concurrent decrement of one
unit commits, our decrement raises the repository InsufficientStockError
and afterwards the committed store still contains the new sale. -/
theorem checkout_sale_record_survives_failed_decrement :
    raceDB.sales = []
    ∧ (InventoryService.check_stock_availability
        [{ product_id := 1, quantity := 1 }] raceDB).is_available = true
    ∧ (SalesService.process_checkout_interleaved (concurrentDecrement 1 1)
        [{ product_id := 1, quantity := 1 }] raceSession).1
      = .error (.repoInsufficientStock 1 0)
    ∧ ((SalesService.process_checkout_interleaved (concurrentDecrement 1 1)
        [{ product_id := 1, quantity := 1 }] raceSession).2).committed.sales ≠ [] :=
  ⟨rfl, rfl, rfl, by decide⟩

def componentProduct : Product :=
  { id := 1, name := "P", unit_cost := 80, sale_price := 150,
    initial_stock := 5, current_stock := 5, product_type := .single }

def componentSet : Product :=
  { id := 2, name := "S", unit_cost := 80, sale_price := 250,
    initial_stock := 0, current_stock := 0, product_type := .set }

def componentDB : DB :=
  { products := [componentProduct, componentSet],
    set_items := [{ set_product_id := 2, item_product_id := 1, quantity := 1 }],
    sales := [], next_sale_id := 0 }

def componentSession : Session := { committed := componentDB, pending := componentDB }

/-- C5.  When the advisory check reports an insufficient product that is
only a set component and not a cart line, the bare next(...) at
sales_service.py line 139 exhausts without a match and the checkout
fails with StopIteration instead of the InsufficientStockError the spec
requires.  Concretely: cart of six units of set 2 (one unit of component
1 each) against component stock 5; the advisory check reports product 1
insufficient, no cart line names product 1, and checkout returns
StopIteration with the session untouched. -/
theorem insufficient_set_component_crashes_with_stop_iteration :
    InventoryService.check_stock_availability
        [{ product_id := 2, quantity := 6 }] componentDB
      = { is_available := false, insufficient_items := [1] }
    ∧ SalesService.process_checkout [{ product_id := 2, quantity := 6 }]
        componentSession
      = (.error .stopIteration, componentSession) :=
  ⟨rfl, rfl⟩

/-- C6.  A cart referencing an unknown product id makes process_checkout
raise builtins.ValueError (sales_service.py line 119), not the
app.exceptions.ProductNotFoundError that the controller maps to the
external ProductNotFound failure; the controller catches only the two
exception classes of app.exceptions, so the ValueError escapes the
endpoint unhandled instead of producing the contract error carrying the
product id.  No state is mutated. -/
theorem unknown_product_checkout_raises_value_error :
    SalesService.process_checkout [{ product_id := 99, quantity := 1 }]
        componentSession
      = (.error (.valueError 99), componentSession)
    ∧ SalesController.checkout [{ product_id := 99, quantity := 1 }]
        componentSession
      = (.error (.internalError (.valueError 99)), componentSession) :=
  ⟨rfl, rfl⟩

def bareSetProduct : Product :=
  { id := 4, name := "T", unit_cost := 130, sale_price := 250,
    initial_stock := 0, current_stock := 0, product_type := .set }

def bareSetDB : DB :=
  { products := [bareSetProduct], set_items := [], sales := [], next_sale_id := 0 }

def bareSetSession : Session := { committed := bareSetDB, pending := bareSetDB }

/-- C9 counterexample.  A request referencing a set product with no
composition entries is not rejected: request validation passes, the
availability check is vacuous, and checkout succeeds, persisting a sale
for two units of set 4 at price 250 and performing no stock change,
instead of failing with the invalid-input rejection the claim states. -/
theorem empty_composition_set_checkout_succeeds :
    CheckoutRequest.is_valid [{ product_id := 4, quantity := 2 }] = true
    ∧ (SalesController.checkout [{ product_id := 4, quantity := 2 }]
        bareSetSession).1 = .ok { sale_id := 0, total_amount := 500 }
    ∧ (SalesController.checkout [{ product_id := 4, quantity := 2 }]
        bareSetSession).2.committed.sales ≠ []
    ∧ (SalesController.checkout [{ product_id := 4, quantity := 2 }]
        bareSetSession).2.committed.products = bareSetDB.products :=
  ⟨rfl, rfl, by decide, rfl⟩

/-- C9 (amended).  Requests with an empty cart or with a line of non
positive quantity are rejected by the request model validation (HTTP
422) before the handler runs, so no lookup, sale record or stock change
occurs; a request referencing a set product with no composition entries
is not rejected and checkout proceeds. -/
theorem malformed_request_rejected_by_validation (items : List CheckoutItem)
    (s : Session) (h : items = [] ∨ ∃ i ∈ items, i.quantity ≤ 0) :
    SalesController.checkout items s = (.error .validationError, s) := by
  have hv : ¬ CheckoutRequest.is_valid items = true := by
    intro hvalid
    unfold CheckoutRequest.is_valid at hvalid
    rw [Bool.and_eq_true, List.all_eq_true] at hvalid
    rcases h with hnil | ⟨i, hi, hq⟩
    · subst hnil; simp at hvalid
    · have := hvalid.2 i hi
      simp at this
      omega
  unfold SalesController.checkout
  rw [if_neg hv]

/-- Witness for the amended C9 at a one line cart with quantity 0. -/
theorem malformed_request_rejected_by_validation_witness :
    (([{ product_id := 1, quantity := 0 }] : List CheckoutItem) = []
      ∨ ∃ i ∈ ([{ product_id := 1, quantity := 0 }] : List CheckoutItem),
          i.quantity ≤ 0)
    ∧ SalesController.checkout [{ product_id := 1, quantity := 0 }] bareSetSession
      = (.error .validationError, bareSetSession) :=
  ⟨by decide,
    malformed_request_rejected_by_validation
      [{ product_id := 1, quantity := 0 }] bareSetSession (by decide)⟩

theorem get_by_id_id (pid : Nat) (db : DB) (p : Product)
    (h : ProductRepository.get_by_id pid db = some p) : p.id = pid := by
  unfold ProductRepository.get_by_id at h
  have := List.find?_some h
  simpa using this

theorem sum_foldl_subtotal (l : List SaleItem) (a : Int) :
    l.foldl (fun acc it => acc + it.subtotal) a = a + (l.map SaleItem.subtotal).sum := by
  induction l generalizing a with
  | nil => simp
  | cons x xs ih => simp [List.foldl_cons, ih, add_assoc]

theorem mkSalesItems_subtotal (details : List (Product × Int)) :
    ∀ it ∈ mkSalesItems details, it.subtotal = it.sale_price * it.quantity := by
  intro it hit
  unfold mkSalesItems at hit
  rcases List.mem_map.mp hit with ⟨pq, _, rfl⟩
  rfl

theorem decrement_stock_ok_frame (pid : Nat) (q : Int) (db db2 : DB) (p : Product)
    (h : ProductRepository.decrement_stock pid q db = .ok (db2, p)) :
    db2.sales = db.sales ∧ db2.set_items = db.set_items
    ∧ db2.next_sale_id = db.next_sale_id := by
  unfold ProductRepository.decrement_stock at h
  split at h
  · exact absurd h (by simp)
  · split at h
    · exact absurd h (by simp)
    · rw [Except.ok.injEq, Prod.mk.injEq] at h
      obtain ⟨h1, -⟩ := h
      subst h1
      exact ⟨rfl, rfl, rfl⟩

theorem decrementComponents_frame (sis : List SetItem) (q : Int) (db db2 : DB)
    (h : decrementComponents sis q db = .ok db2) :
    db2.sales = db.sales ∧ db2.set_items = db.set_items
    ∧ db2.next_sale_id = db.next_sale_id := by
  induction sis generalizing db with
  | nil =>
    unfold decrementComponents at h
    rw [Except.ok.injEq] at h
    subst h
    exact ⟨rfl, rfl, rfl⟩
  | cons si rest ih =>
    unfold decrementComponents at h
    split at h
    · exact absurd h (by simp)
    · next db3 p3 heq =>
      obtain ⟨a1, a2, a3⟩ := decrement_stock_ok_frame _ _ _ _ _ heq
      obtain ⟨b1, b2, b3⟩ := ih _ h
      exact ⟨b1.trans a1, b2.trans a2, b3.trans a3⟩

theorem decrementLoop_frame (details : List (Product × Int)) (s s2 : Session)
    (h : decrementLoop details s = .ok s2) :
    s2.committed = s.committed ∧ s2.pending.sales = s.pending.sales
    ∧ s2.pending.set_items = s.pending.set_items
    ∧ s2.pending.next_sale_id = s.pending.next_sale_id := by
  induction details generalizing s with
  | nil =>
    unfold decrementLoop at h
    rw [Except.ok.injEq] at h
    subst h
    exact ⟨rfl, rfl, rfl, rfl⟩
  | cons pq rest ih =>
    unfold decrementLoop at h
    split at h
    · split at h
      · exact absurd h (by simp)
      · next db3 p3 heq =>
        obtain ⟨a1, a2, a3⟩ := decrement_stock_ok_frame _ _ _ _ _ heq
        obtain ⟨b0, b1, b2, b3⟩ := ih _ h
        exact ⟨b0, b1.trans a1, b2.trans a2, b3.trans a3⟩
    · split at h
      · exact absurd h (by simp)
      · next db3 heq =>
        obtain ⟨a1, a2, a3⟩ := decrementComponents_frame _ _ _ _ heq
        obtain ⟨b0, b1, b2, b3⟩ := ih _ h
        exact ⟨b0, b1.trans a1, b2.trans a2, b3.trans a3⟩

theorem process_checkout_ok_cases (items : List CheckoutItem) (s : Session)
    (r : CheckoutResult) (s2 : Session)
    (h : SalesService.process_checkout items s = (.ok r, s2)) :
    ∃ item_details sale,
      buildItemDetails items s.pending = .ok item_details
      ∧ sale.total_amount =
          (mkSalesItems item_details).foldl (fun acc it => acc + it.subtotal) 0
      ∧ sale.sale_items =
          (mkSalesItems item_details).map
            (fun it => { it with sale_id := s.pending.next_sale_id })
      ∧ s2.committed.sales = s.pending.sales ++ [sale]
      ∧ r.total_amount = sale.total_amount := by
  unfold SalesService.process_checkout at h
  split at h
  · exact absurd h (by simp)
  · next item_details hbuild =>
    dsimp only at h
    split at h
    · -- available: create_sale then the decrement loop
      split at h
      · exact absurd h (by simp)
      · next sfin hloop =>
        rw [Prod.mk.injEq, Except.ok.injEq] at h
        obtain ⟨hr, hs2⟩ := h
        refine ⟨item_details,
          (SalesHistoryRepository.create_sale
            ((mkSalesItems item_details).foldl (fun acc it => acc + it.subtotal) 0)
            (mkSalesItems item_details) s).2,
          hbuild, ?_, ?_, ?_, ?_⟩
        · rfl
        · rfl
        · obtain ⟨-, hsales, -, -⟩ := decrementLoop_frame _ _ _ hloop
          rw [← hs2]
          exact hsales
        · rw [← hr]
    · -- unavailable: every branch raises
      split at h
      · exact absurd h (by simp)
      · split at h
        · exact absurd h (by simp)
        · exact absurd h (by simp)

/-- C8.  Conservation of money: every successful checkout persists a
sale whose line items each record subtotal = snapshotted sale_price
times quantity, and whose total_amount is the sum of the line item
subtotals (and is the amount returned to the caller). -/
theorem checkout_conservation (items : List CheckoutItem) (s : Session)
    (r : CheckoutResult) (s2 : Session)
    (h : SalesService.process_checkout items s = (.ok r, s2)) :
    ∃ sale,
      s2.committed.sales = s.pending.sales ++ [sale]
      ∧ r.total_amount = sale.total_amount
      ∧ (∀ it ∈ sale.sale_items, it.subtotal = it.sale_price * it.quantity)
      ∧ sale.total_amount = (sale.sale_items.map SaleItem.subtotal).sum := by
  obtain ⟨details, sale, hbuild, htot, hitems, hsales, hr⟩ :=
    process_checkout_ok_cases items s r s2 h
  refine ⟨sale, hsales, hr, ?_, ?_⟩
  · intro it hit
    rw [hitems] at hit
    rcases List.mem_map.mp hit with ⟨src, hsrc, rfl⟩
    exact mkSalesItems_subtotal details src hsrc
  · rw [htot, sum_foldl_subtotal, hitems, List.map_map]
    simp only [zero_add]
    rfl

/-- Witness for C8: a successful checkout of two units of product 1 at
price 150 from the component scenario store. -/
theorem checkout_conservation_witness :
    SalesService.process_checkout [{ product_id := 1, quantity := 2 }]
        componentSession
      = (.ok { sale_id := 0, total_amount := 300 },
         (SalesService.process_checkout [{ product_id := 1, quantity := 2 }]
           componentSession).2)
    ∧ ∃ sale,
        ((SalesService.process_checkout [{ product_id := 1, quantity := 2 }]
          componentSession).2).committed.sales
          = componentSession.pending.sales ++ [sale]
        ∧ ({ sale_id := 0, total_amount := 300 } : CheckoutResult).total_amount
            = sale.total_amount
        ∧ (∀ it ∈ sale.sale_items, it.subtotal = it.sale_price * it.quantity)
        ∧ sale.total_amount = (sale.sale_items.map SaleItem.subtotal).sum :=
  ⟨rfl, checkout_conservation [{ product_id := 1, quantity := 2 }]
    componentSession { sale_id := 0, total_amount := 300 }
    (SalesService.process_checkout [{ product_id := 1, quantity := 2 }]
      componentSession).2 rfl⟩

theorem find?_map_update (l : List Product) (pid : Nat) (p q : Product)
    (h : l.find? (fun x => x.id == pid) = some p) (hq : q.id = pid) :
    (l.map (fun x => if x.id = q.id then q else x)).find? (fun x => x.id == pid)
      = some q := by
  induction l with
  | nil => simp at h
  | cons a rest ih =>
    by_cases ha : a.id = pid
    · have hrw : (if a.id = q.id then q else a) = q := by
        rw [hq, if_pos ha]
      simp only [List.map_cons, hrw]
      rw [List.find?_cons_of_pos _ (by simp [hq])]
    · rw [List.find?_cons_of_neg _ (by simp [ha])] at h
      have hrw : (if a.id = q.id then q else a) = a := by
        rw [hq, if_neg ha]
      simp only [List.map_cons, hrw]
      rw [List.find?_cons_of_neg _ (by simp [ha])]
      exact ih h

theorem get_by_id_updateProduct (pid : Nat) (db : DB) (p q : Product)
    (h : ProductRepository.get_by_id pid db = some p) (hq : q.id = pid) :
    ProductRepository.get_by_id pid (db.updateProduct q) = some q := by
  unfold ProductRepository.get_by_id at h
  unfold ProductRepository.get_by_id DB.updateProduct
  exact find?_map_update db.products pid p q h hq

theorem update_price_ok_inv (pid : Nat) (np : Int) (s : Session)
    (p2 : Product) (s2 : Session)
    (h : ProductService.update_price pid np s = (.ok p2, s2)) :
    ∃ p, ProductRepository.get_by_id pid s.pending = some p
      ∧ p2 = { p with sale_price := np }
      ∧ s2 = Session.commit { s with pending := s.pending.updateProduct p2 } := by
  unfold ProductService.update_price at h
  split at h
  · exact absurd h (by simp)
  · next p hget =>
    split at h
    · exact absurd h (by simp)
    · next db2 q2 hupd =>
      unfold ProductRepository.update_sale_price at hupd
      rw [hget] at hupd
      dsimp only at hupd
      rw [Option.some.injEq, Prod.mk.injEq] at hupd
      obtain ⟨hdb2, hq2⟩ := hupd
      rw [Prod.mk.injEq, Except.ok.injEq] at h
      obtain ⟨h1, h2⟩ := h
      refine ⟨p, hget, ?_, ?_⟩
      · rw [← h1, ← hq2]
      · rw [← h2, ← hdb2, ← h1, ← hq2]

theorem buildItemDetails_mem (items : List CheckoutItem) (db : DB)
    (details : List (Product × Int))
    (h : buildItemDetails items db = .ok details) :
    ∀ pq ∈ details, ProductRepository.get_by_id pq.1.id db = some pq.1 := by
  induction items generalizing details with
  | nil =>
    unfold buildItemDetails at h
    rw [Except.ok.injEq] at h
    subst h
    intro pq hpq
    exact absurd hpq (List.not_mem_nil pq)
  | cons item rest ih =>
    unfold buildItemDetails at h
    split at h
    · exact absurd h (by simp)
    · next product hget =>
      cases hrest : buildItemDetails rest db with
      | error e =>
        rw [hrest] at h
        exact absurd h (by simp [Except.map])
      | ok l =>
        rw [hrest] at h
        simp only [Except.map, Except.ok.injEq] at h
        subst h
        intro pq hpq
        rcases List.mem_cons.mp hpq with hhd | htl
        · subst hhd
          have hid := get_by_id_id item.product_id db product hget
          rw [hid]
          exact hget
        · exact ih l hrest pq htl

/-- C7.  Price snapshots are immutable: a successful update_price leaves
every persisted sale and its line items untouched, stores the new price
on the product row, and any subsequent successful checkout snapshots the
new price into the line items it persists for that product. -/
theorem price_update_preserves_sale_items (s : Session) (pid : Nat) (np : Int)
    (p2 : Product) (s2 : Session)
    (hclean : s.pending = s.committed)
    (h : ProductService.update_price pid np s = (.ok p2, s2)) :
    s2.committed.sales = s.committed.sales
    ∧ p2.sale_price = np
    ∧ ProductRepository.get_by_id pid s2.pending = some p2
    ∧ (∀ items r s3 sale,
        SalesService.process_checkout items s2 = (.ok r, s3) →
        s3.committed.sales = s2.pending.sales ++ [sale] →
        ∀ it ∈ sale.sale_items, it.product_id = pid → it.sale_price = np) := by
  obtain ⟨p, hget, hp2, hs2⟩ := update_price_ok_inv pid np s p2 s2 h
  have hid2 : p2.id = pid := by
    rw [hp2]
    exact get_by_id_id pid s.pending p hget
  have hget2 : ProductRepository.get_by_id pid s2.pending = some p2 := by
    rw [hs2]
    exact get_by_id_updateProduct pid s.pending p p2 hget hid2
  refine ⟨?_, by rw [hp2], hget2, ?_⟩
  · rw [hs2, ← hclean]
    rfl
  · intro items r s3 sale hok hsale it hit hitpid
    obtain ⟨details, sale2, hbuild, htot, hitems, hsales, hr⟩ :=
      process_checkout_ok_cases items s2 r s3 hok
    have hsame : sale = sale2 := by
      rw [hsale] at hsales
      have := List.append_cancel_left hsales
      exact (List.cons.injEq _ _ _ _).mp this |>.1
    subst hsame
    rw [hitems] at hit
    rcases List.mem_map.mp hit with ⟨src, hsrc, rfl⟩
    rcases List.mem_map.mp hsrc with ⟨pq, hpq, rfl⟩
    have hmem := buildItemDetails_mem items s2.pending details hbuild pq hpq
    have hpqid : pq.1.id = pid := hitpid
    rw [hpqid, hget2] at hmem
    have : pq.1 = p2 := by
      injection hmem.symm
    show pq.1.sale_price = np
    rw [this, hp2]

def immutP : Product :=
  { id := 1, name := "P", unit_cost := 80, sale_price := 200,
    initial_stock := 10, current_stock := 10, product_type := .single }

def immutDB : DB :=
  { products := [immutP], set_items := [], sales := [], next_sale_id := 0 }

def immutSession : Session := { committed := immutDB, pending := immutDB }

def immutP2 : Product := { immutP with sale_price := 300 }

def immutSession2 : Session := (ProductService.update_price 1 300 immutSession).2

/-- Witness for C7: product 1 sells at 200, the price is updated to 300,
and the theorem is applied to that concrete update. -/
theorem price_update_preserves_sale_items_witness :
    immutSession.pending = immutSession.committed
    ∧ ProductService.update_price 1 300 immutSession = (.ok immutP2, immutSession2)
    ∧ (immutSession2.committed.sales = immutSession.committed.sales
      ∧ immutP2.sale_price = 300
      ∧ ProductRepository.get_by_id 1 immutSession2.pending = some immutP2
      ∧ (∀ items r s3 sale,
          SalesService.process_checkout items immutSession2 = (.ok r, s3) →
          s3.committed.sales = immutSession2.pending.sales ++ [sale] →
          ∀ it ∈ sale.sale_items, it.product_id = 1 → it.sale_price = 300)) :=
  ⟨rfl, rfl,
    price_update_preserves_sale_items immutSession 1 300 immutP2 immutSession2
      rfl rfl⟩

/-- The indirect, through a set, part of one cart line contribution to
the aggregated requirement of product pid: per set quantity times the
line quantity for each composition entry naming pid, when the line
product is a set; nothing for a single product. -/
def lineSetContribution (db : DB) (pid : Nat) (line : CheckoutItem)
    (p : Product) : Int :=
  match p.product_type with
  | .set =>
    ((SetItemRepository.get_by_set_product_id line.product_id db).map
      (fun si =>
        if si.item_product_id = pid then si.quantity * line.quantity
        else 0)).sum
  | .single => 0

/-- The contribution of one cart line to the aggregated requirement of
product pid, as the claim words it: the line quantity when the line
names pid directly, plus per set quantity times the line quantity for
each composition entry of a set line whose component is pid. -/
def lineRequired (db : DB) (pid : Nat) (line : CheckoutItem) : Int :=
  (if line.product_id = pid then line.quantity else 0) +
    (match ProductRepository.get_by_id line.product_id db with
     | some p => lineSetContribution db pid line p
     | none => 0)

/-- The aggregated requirement of product pid over a whole cart: the sum
of the per line contributions. -/
def totalRequired (db : DB) (items : List CheckoutItem) (pid : Nat) : Int :=
  (items.map (lineRequired db pid)).sum

theorem dictGet_dictSet_self (d : List (Nat × Int)) (k : Nat) (v : Int) :
    dictGet (dictSet d k v) k = v := by
  induction d with
  | nil => simp [dictSet, dictGet]
  | cons kv rest ih =>
    by_cases hk : kv.1 = k
    · simp [dictSet, dictGet, hk]
    · simp [dictSet, dictGet, hk, ih]

theorem dictGet_dictSet_ne (d : List (Nat × Int)) (k k2 : Nat) (v : Int)
    (h : k ≠ k2) : dictGet (dictSet d k v) k2 = dictGet d k2 := by
  induction d with
  | nil => simp [dictSet, dictGet, h]
  | cons kv rest ih =>
    by_cases hk : kv.1 = k
    · simp [dictSet, dictGet, hk, h]
    · simp only [dictSet, if_neg hk]
      by_cases hk2 : kv.1 = k2
      · simp [dictGet, hk2]
      · simp [dictGet, hk2, ih]

theorem dictGet_addComponents (sis : List SetItem) (q : Int)
    (acc : List (Nat × Int)) (pid : Nat) :
    dictGet (addComponents sis q acc) pid =
      dictGet acc pid +
        ((sis.map (fun si =>
          if si.item_product_id = pid then si.quantity * q else 0)).sum) := by
  induction sis generalizing acc with
  | nil => simp [addComponents]
  | cons si rest ih =>
    rw [addComponents, ih]
    by_cases hp : si.item_product_id = pid
    · rw [hp, dictGet_dictSet_self]
      simp [hp]
      ring
    · rw [dictGet_dictSet_ne _ _ _ _ hp]
      simp [hp]

theorem dictSet_keys (d : List (Nat × Int)) (k : Nat) (v : Int) (k2 : Nat)
    (h : k2 ∈ (dictSet d k v).map Prod.fst) :
    k2 ∈ d.map Prod.fst ∨ k2 = k := by
  induction d with
  | nil =>
    simp [dictSet] at h
    exact Or.inr h
  | cons kv rest ih =>
    by_cases hk : kv.1 = k
    · simp only [dictSet, if_pos hk, List.map_cons, List.mem_cons] at h
      rcases h with h | h
      · exact Or.inr h
      · exact Or.inl (by simp [List.mem_cons]; exact Or.inr (by simpa using h))
    · simp only [dictSet, if_neg hk, List.map_cons, List.mem_cons] at h
      rcases h with h | h
      · exact Or.inl (by simp [List.mem_cons, h])
      · rcases ih h with h2 | h2
        · exact Or.inl (by simp [List.mem_cons]; exact Or.inr (by simpa using h2))
        · exact Or.inr h2

theorem dictSet_keys_nodup (d : List (Nat × Int)) (k : Nat) (v : Int)
    (h : (d.map Prod.fst).Nodup) : ((dictSet d k v).map Prod.fst).Nodup := by
  induction d with
  | nil => simp [dictSet]
  | cons kv rest ih =>
    rw [List.map_cons, List.nodup_cons] at h
    by_cases hk : kv.1 = k
    · rw [dictSet, if_pos hk, List.map_cons, List.nodup_cons]
      exact ⟨by rw [← hk]; exact h.1, h.2⟩
    · rw [dictSet, if_neg hk, List.map_cons, List.nodup_cons]
      refine ⟨?_, ih h.2⟩
      intro hmem
      rcases dictSet_keys rest k v kv.1 hmem with h2 | h2
      · exact h.1 h2
      · exact hk h2

theorem addComponents_keys (sis : List SetItem) (q : Int)
    (acc : List (Nat × Int)) (k2 : Nat)
    (h : k2 ∈ (addComponents sis q acc).map Prod.fst) :
    k2 ∈ acc.map Prod.fst ∨ ∃ si ∈ sis, si.item_product_id = k2 := by
  induction sis generalizing acc with
  | nil => exact Or.inl h
  | cons si rest ih =>
    rw [addComponents] at h
    rcases ih _ h with h2 | ⟨si2, hsi2, hk⟩
    · rcases dictSet_keys _ _ _ _ h2 with h3 | h3
      · exact Or.inl h3
      · exact Or.inr ⟨si, List.mem_cons_self si rest, h3.symm⟩
    · exact Or.inr ⟨si2, List.mem_cons_of_mem si hsi2, hk⟩

theorem addComponents_keys_nodup (sis : List SetItem) (q : Int)
    (acc : List (Nat × Int)) (h : (acc.map Prod.fst).Nodup) :
    ((addComponents sis q acc).map Prod.fst).Nodup := by
  induction sis generalizing acc with
  | nil => exact h
  | cons si rest ih =>
    rw [addComponents]
    exact ih _ (dictSet_keys_nodup _ _ _ h)

theorem dictGet_mem (d : List (Nat × Int)) (k : Nat)
    (h : k ∈ d.map Prod.fst) : (k, dictGet d k) ∈ d := by
  induction d with
  | nil => simp at h
  | cons kv rest ih =>
    by_cases hk : kv.1 = k
    · rw [dictGet, if_pos hk, ← hk, Prod.mk.eta]
      exact List.mem_cons_self kv rest
    · rw [dictGet, if_neg hk]
      rw [List.map_cons, List.mem_cons] at h
      rcases h with h | h
      · exact absurd h.symm hk
      · exact List.mem_cons_of_mem kv (ih h)

theorem dictGet_not_mem (d : List (Nat × Int)) (k : Nat)
    (h : k ∉ d.map Prod.fst) : dictGet d k = 0 := by
  induction d with
  | nil => rfl
  | cons kv rest ih =>
    rw [List.map_cons, List.mem_cons] at h
    push_neg at h
    rw [dictGet, if_neg (fun he => h.1 he.symm)]
    exact ih h.2

theorem mem_dict_value (d : List (Nat × Int)) (k : Nat) (v : Int)
    (hnd : (d.map Prod.fst).Nodup) (h : (k, v) ∈ d) : dictGet d k = v := by
  induction d with
  | nil => simp at h
  | cons kv rest ih =>
    rw [List.map_cons, List.nodup_cons] at hnd
    rcases List.mem_cons.mp h with h2 | h2
    · rw [← h2]
      simp [dictGet]
    · by_cases hk : kv.1 = k
      · exact absurd (by rw [hk]; exact List.mem_map_of_mem Prod.fst h2) hnd.1
      · rw [dictGet, if_neg hk]
        exact ih hnd.2 h2

theorem collectInsufficient_eq_nil (entries : List (Nat × Int)) (db : DB) :
    (collectInsufficient entries db = [] ↔
      ∀ kv ∈ entries, ∃ p, ProductRepository.get_by_id kv.1 db = some p
        ∧ ¬ p.current_stock < kv.2) := by
  induction entries with
  | nil => simp [collectInsufficient]
  | cons kv rest ih =>
    obtain ⟨pid, req⟩ := kv
    rw [collectInsufficient]
    cases hget : ProductRepository.get_by_id pid db with
    | none => simp [hget]
    | some p =>
      by_cases hlt : p.current_stock < req
      · simp [hget, hlt]
      · simp only [hget, if_neg hlt, ih, List.mem_cons]
        constructor
        · intro hall kv2 hkv2
          rcases hkv2 with h2 | h2
          · subst h2
            exact ⟨p, hget, hlt⟩
          · exact hall kv2 h2
        · intro hall kv2 hkv2
          exact hall kv2 (Or.inr hkv2)

theorem accumulateRequired_ok (items : List CheckoutItem) (db : DB)
    (acc : List (Nat × Int))
    (hex : ∀ i ∈ items, (ProductRepository.get_by_id i.product_id db).isSome = true) :
    ∃ d, accumulateRequired items db acc = .ok d := by
  induction items generalizing acc with
  | nil => exact ⟨acc, rfl⟩
  | cons item rest ih =>
    have hhd := hex item (List.mem_cons_self item rest)
    cases hget : ProductRepository.get_by_id item.product_id db with
    | none => rw [hget] at hhd; simp at hhd
    | some product =>
      unfold accumulateRequired
      rw [hget]
      exact show ∃ d,
          accumulateRequired rest db (accumulateStep product item db acc) = .ok d from
        ih _ (fun i hi => hex i (List.mem_cons_of_mem item hi))

theorem lineRequired_eq (db : DB) (pid : Nat) (line : CheckoutItem)
    (product : Product)
    (hget : ProductRepository.get_by_id line.product_id db = some product) :
    lineRequired db pid line =
      (if line.product_id = pid then line.quantity else 0) +
        lineSetContribution db pid line product := by
  unfold lineRequired
  rw [hget]

theorem lineSetContribution_single (db : DB) (pid : Nat) (line : CheckoutItem)
    (product : Product) (hpt : product.product_type = ProductType.single) :
    lineSetContribution db pid line product = 0 := by
  unfold lineSetContribution
  rw [hpt]

theorem lineSetContribution_set (db : DB) (pid : Nat) (line : CheckoutItem)
    (product : Product) (hpt : product.product_type = ProductType.set) :
    lineSetContribution db pid line product =
      ((SetItemRepository.get_by_set_product_id line.product_id db).map
        (fun si =>
          if si.item_product_id = pid then si.quantity * line.quantity
          else 0)).sum := by
  unfold lineSetContribution
  rw [hpt]

theorem accumulateStep_single (product : Product) (item : CheckoutItem)
    (db : DB) (acc : List (Nat × Int))
    (hpt : product.product_type = ProductType.single) :
    accumulateStep product item db acc =
      dictSet acc item.product_id (dictGet acc item.product_id + item.quantity) := by
  unfold accumulateStep
  rw [hpt]

theorem accumulateStep_set (product : Product) (item : CheckoutItem)
    (db : DB) (acc : List (Nat × Int))
    (hpt : product.product_type = ProductType.set) :
    accumulateStep product item db acc =
      addComponents (SetItemRepository.get_by_set_product_id item.product_id db)
        item.quantity acc := by
  unfold accumulateStep
  rw [hpt]

theorem accumulateStep_keys (product : Product) (item : CheckoutItem)
    (db : DB) (acc : List (Nat × Int)) (k2 : Nat)
    (h : k2 ∈ (accumulateStep product item db acc).map Prod.fst) :
    k2 ∈ acc.map Prod.fst
    ∨ (product.product_type = ProductType.single ∧ k2 = item.product_id)
    ∨ (product.product_type = ProductType.set
        ∧ ∃ si ∈ SetItemRepository.get_by_set_product_id item.product_id db,
            si.item_product_id = k2) := by
  cases hpt : product.product_type
  · rw [accumulateStep_single _ _ _ _ hpt] at h
    rcases dictSet_keys _ _ _ _ h with h2 | h2
    · exact Or.inl h2
    · exact Or.inr (Or.inl ⟨rfl, h2⟩)
  · rw [accumulateStep_set _ _ _ _ hpt] at h
    rcases addComponents_keys _ _ _ _ h with h2 | h2
    · exact Or.inl h2
    · exact Or.inr (Or.inr ⟨rfl, h2⟩)

theorem accumulateStep_keys_nodup (product : Product) (item : CheckoutItem)
    (db : DB) (acc : List (Nat × Int)) (h : (acc.map Prod.fst).Nodup) :
    ((accumulateStep product item db acc).map Prod.fst).Nodup := by
  cases hpt : product.product_type
  · rw [accumulateStep_single _ _ _ _ hpt]
    exact dictSet_keys_nodup _ _ _ h
  · rw [accumulateStep_set _ _ _ _ hpt]
    exact addComponents_keys_nodup _ _ _ h

theorem accumulateRequired_keys_nodup (items : List CheckoutItem) (db : DB)
    (acc d : List (Nat × Int)) (hnd : (acc.map Prod.fst).Nodup)
    (h : accumulateRequired items db acc = .ok d) : (d.map Prod.fst).Nodup := by
  induction items generalizing acc with
  | nil =>
    unfold accumulateRequired at h
    rw [Except.ok.injEq] at h
    subst h
    exact hnd
  | cons item rest ih =>
    unfold accumulateRequired at h
    split at h
    · exact absurd h (by simp)
    · next product hget =>
      exact ih _ (accumulateStep_keys_nodup product item db acc hnd) h

theorem accumulateRequired_keys (items : List CheckoutItem) (db : DB)
    (acc d : List (Nat × Int)) (k2 : Nat)
    (h : accumulateRequired items db acc = .ok d) (hk : k2 ∈ d.map Prod.fst) :
    k2 ∈ acc.map Prod.fst
    ∨ ∃ item ∈ items, ∃ p, ProductRepository.get_by_id item.product_id db = some p
        ∧ ((p.product_type = ProductType.single ∧ k2 = item.product_id)
          ∨ (p.product_type = ProductType.set
              ∧ ∃ si ∈ SetItemRepository.get_by_set_product_id item.product_id db,
                  si.item_product_id = k2)) := by
  induction items generalizing acc with
  | nil =>
    unfold accumulateRequired at h
    rw [Except.ok.injEq] at h
    subst h
    exact Or.inl hk
  | cons item rest ih =>
    unfold accumulateRequired at h
    split at h
    · exact absurd h (by simp)
    · next product hget =>
      rcases ih _ h with h2 | ⟨item2, hitem2, p, hgetp, hcase⟩
      · rcases accumulateStep_keys product item db acc k2 h2 with h3 | h3 | h3
        · exact Or.inl h3
        · exact Or.inr ⟨item, List.mem_cons_self item rest, product, hget, Or.inl h3⟩
        · exact Or.inr ⟨item, List.mem_cons_self item rest, product, hget, Or.inr h3⟩
      · exact Or.inr ⟨item2, List.mem_cons_of_mem item hitem2, p, hgetp, hcase⟩

theorem dictGet_accumulateStep (product : Product) (item : CheckoutItem)
    (db : DB) (acc : List (Nat × Int)) (pid : Nat) (p0 : Product)
    (hget : ProductRepository.get_by_id item.product_id db = some product)
    (hp0 : ProductRepository.get_by_id pid db = some p0)
    (hs : p0.product_type = ProductType.single) :
    dictGet (accumulateStep product item db acc) pid =
      dictGet acc pid + lineRequired db pid item := by
  rw [lineRequired_eq db pid item product hget]
  cases hpt : product.product_type
  · rw [accumulateStep_single _ _ _ _ hpt,
      lineSetContribution_single _ _ _ _ hpt]
    by_cases hpd : item.product_id = pid
    · subst hpd
      rw [dictGet_dictSet_self, if_pos rfl]
      ring
    · rw [dictGet_dictSet_ne _ _ _ _ hpd, if_neg hpd]
      ring
  · have hpd : item.product_id ≠ pid := by
      intro he
      rw [he, hp0, Option.some.injEq] at hget
      rw [← hget, hs] at hpt
      exact ProductType.noConfusion hpt
    rw [accumulateStep_set _ _ _ _ hpt, lineSetContribution_set _ _ _ _ hpt,
      dictGet_addComponents, if_neg hpd]
    ring

theorem dictGet_accumulateRequired (items : List CheckoutItem) (db : DB)
    (acc d : List (Nat × Int)) (pid : Nat) (p0 : Product)
    (hp0 : ProductRepository.get_by_id pid db = some p0)
    (hs : p0.product_type = ProductType.single)
    (h : accumulateRequired items db acc = .ok d) :
    dictGet d pid = dictGet acc pid + totalRequired db items pid := by
  induction items generalizing acc with
  | nil =>
    unfold accumulateRequired at h
    rw [Except.ok.injEq] at h
    subst h
    simp [totalRequired]
  | cons item rest ih =>
    unfold accumulateRequired at h
    split at h
    · exact absurd h (by simp)
    · next product hget =>
      rw [ih _ h, dictGet_accumulateStep product item db acc pid p0 hget hp0 hs]
      unfold totalRequired
      rw [List.map_cons, List.sum_cons]
      ring

/-- C3.  Under the assumptions that every cart line references an
existing product, that every composition entry reachable from a cart
line references an existing single component (the spec invariant on
compositions), and that all stored stocks are non negative (the data
model invariant), the advisory availability check reports the cart
available exactly when, for every single product, the aggregated
requirement, summed over direct lines and set expansions before any
comparison, is at most that product current stock.  In particular a
cart whose lines together exceed a product stock is unavailable even
when no single line does. -/
theorem check_stock_availability_aggregates_overlap
    (items : List CheckoutItem) (db : DB)
    (hex : ∀ i ∈ items, (ProductRepository.get_by_id i.product_id db).isSome = true)
    (hcomp : ∀ i ∈ items,
      ∀ si ∈ SetItemRepository.get_by_set_product_id i.product_id db,
        (ProductRepository.get_by_id si.item_product_id db).any
          (fun q => q.product_type == ProductType.single) = true)
    (hnn : ∀ p ∈ db.products, 0 ≤ p.current_stock) :
    ((InventoryService.check_stock_availability items db).is_available = true ↔
      ∀ pid p, ProductRepository.get_by_id pid db = some p →
        p.product_type = ProductType.single →
        totalRequired db items pid ≤ p.current_stock) := by
  obtain ⟨d, hd⟩ := accumulateRequired_ok items db [] hex
  have hnd : (d.map Prod.fst).Nodup :=
    accumulateRequired_keys_nodup items db [] d (by simp) hd
  unfold InventoryService.check_stock_availability
  rw [hd]
  show ((collectInsufficient d db).isEmpty = true ↔ _)
  rw [List.isEmpty_iff, collectInsufficient_eq_nil]
  constructor
  · intro hall pid p hget hsingle
    have hagg : dictGet d pid = totalRequired db items pid := by
      have := dictGet_accumulateRequired items db [] d pid p hget hsingle hd
      simpa [dictGet] using this
    by_cases hk : pid ∈ d.map Prod.fst
    · obtain ⟨p2, hget2, hle⟩ := hall (pid, dictGet d pid) (dictGet_mem d pid hk)
      rw [hget, Option.some.injEq] at hget2
      subst hget2
      rw [← hagg]
      omega
    · rw [← hagg, dictGet_not_mem d pid hk]
      exact hnn p (List.mem_of_find?_eq_some hget)
  · intro hreq kv hkv
    obtain ⟨pid, v⟩ := kv
    have hk : pid ∈ d.map Prod.fst := List.mem_map_of_mem Prod.fst hkv
    have hval : dictGet d pid = v := mem_dict_value d pid v hnd hkv
    rcases accumulateRequired_keys items db [] d pid hd hk with hin | hcase
    · simp at hin
    · obtain ⟨item, hitem, p, hgetp, hcase⟩ := hcase
      rcases hcase with ⟨hsing, hpid⟩ | ⟨hset, si, hsi, hpid⟩
      · subst hpid
        refine ⟨p, hgetp, ?_⟩
        have hle := hreq item.product_id p hgetp hsing
        have hagg : dictGet d item.product_id =
            totalRequired db items item.product_id := by
          have := dictGet_accumulateRequired items db [] d item.product_id p
            hgetp hsing hd
          simpa [dictGet] using this
        omega
      · have hany := hcomp item hitem si hsi
        rw [hpid] at hany
        cases hq : ProductRepository.get_by_id pid db with
        | none =>
          rw [hq] at hany
          simp [Option.any] at hany
        | some q =>
          rw [hq] at hany
          simp [Option.any] at hany
          refine ⟨q, rfl, ?_⟩
          have hle := hreq pid q hq hany
          have hagg : dictGet d pid = totalRequired db items pid := by
            have := dictGet_accumulateRequired items db [] d pid q hq hany hd
            simpa [dictGet] using this
          omega

def overlapP : Product :=
  { id := 1, name := "P", unit_cost := 80, sale_price := 150,
    initial_stock := 100, current_stock := 100, product_type := .single }

def overlapO : Product :=
  { id := 2, name := "O", unit_cost := 30, sale_price := 100,
    initial_stock := 150, current_stock := 150, product_type := .single }

def overlapS : Product :=
  { id := 3, name := "S", unit_cost := 130, sale_price := 250,
    initial_stock := 0, current_stock := 0, product_type := .set }

def overlapDB : DB :=
  { products := [overlapP, overlapO, overlapS],
    set_items := [{ set_product_id := 3, item_product_id := 1, quantity := 2 },
      { set_product_id := 3, item_product_id := 2, quantity := 1 }],
    sales := [], next_sale_id := 0 }

/-- Witness for C3 at the overlap scenario of the spec: set 3 consumes
two of product 1 and one of product 2; the cart requests set 3 forty
nine times plus product 1 four times. -/
theorem check_stock_availability_aggregates_overlap_witness :
    (∀ i ∈ ([{ product_id := 3, quantity := 49 },
        { product_id := 1, quantity := 4 }] : List CheckoutItem),
      (ProductRepository.get_by_id i.product_id overlapDB).isSome = true)
    ∧ (∀ i ∈ ([{ product_id := 3, quantity := 49 },
        { product_id := 1, quantity := 4 }] : List CheckoutItem),
      ∀ si ∈ SetItemRepository.get_by_set_product_id i.product_id overlapDB,
        (ProductRepository.get_by_id si.item_product_id overlapDB).any
          (fun q => q.product_type == ProductType.single) = true)
    ∧ (∀ p ∈ overlapDB.products, 0 ≤ p.current_stock)
    ∧ ((InventoryService.check_stock_availability
        [{ product_id := 3, quantity := 49 },
          { product_id := 1, quantity := 4 }] overlapDB).is_available = true ↔
      ∀ pid p, ProductRepository.get_by_id pid overlapDB = some p →
        p.product_type = ProductType.single →
        totalRequired overlapDB
          [{ product_id := 3, quantity := 49 },
            { product_id := 1, quantity := 4 }] pid ≤ p.current_stock) :=
  ⟨by decide, by decide, by decide,
    check_stock_availability_aggregates_overlap
      [{ product_id := 3, quantity := 49 }, { product_id := 1, quantity := 4 }]
      overlapDB (by decide) (by decide) (by decide)⟩
